import Mathlib

/-!
Verification model of the pomitik timer core (src/timer.rs, src/session.rs,
src/render.rs, src/duration.rs, src/config.rs).

The Rust code is embedded shallowly: the tick loop of `timer::run` becomes a
recursive function over an explicit list of per-tick observations (flag reads,
wall-clock reading, draw success), the input-listener thread becomes a fold
over a list of key events acting on a listener state that carries the four
signal flags and the shared round-target value, and `run_session` becomes a
recursive function over the scripted outcomes of its `timer::run` calls and
the scripted values returned by the successive atomic loads of the shared
round counter.  Wall-clock instants are nanoseconds since the phase start;
`u32` arithmetic on the round counter is `Nat` arithmetic modulo `2 ^ 32`.
-/

namespace Pomitik

/-- `TimerContext` from src/timer.rs. -/
inductive TimerContext
  | Standalone
  | Work
  | Break
deriving DecidableEq, Repr

/-- `TimerOutcome` from src/timer.rs. -/
inductive TimerOutcome
  | Completed
  | Skipped
  | StoppedEarly
  | Quit
deriving DecidableEq, Repr

/-- Nanoseconds per second: `Duration::as_secs` truncates to this unit. -/
def nsPerSec : Nat := 1000000000

/-- The `u32` modulus for the shared `AtomicU32` round counter. -/
def u32Mod : Nat := 4294967296

/-- One observation of the wall clock inside the tick loop: `now` is
`start.elapsed()` in nanoseconds, `paused` the value read from the pause
channel this iteration. -/
structure ClockObs where
  now : Nat
  paused : Bool
deriving DecidableEq, Repr

/-- The mutable pause bookkeeping of the tick loop in src/timer.rs
(`paused_duration` and `pause_start`, lines 124-125), in nanoseconds. -/
structure ClockState where
  pausedDuration : Nat
  pauseStart : Option Nat
deriving DecidableEq, Repr

/-- The pause bookkeeping of one loop iteration (src/timer.rs lines 145-151):
on running to paused record the pause start, on paused to running add the
finished pause interval to `pausedDuration`. -/
def clockStep (o : ClockObs) (s : ClockState) : ClockState :=
  if o.paused then
    match s.pauseStart with
    | none => { s with pauseStart := some o.now }
    | some _ => s
  else
    match s.pauseStart with
    | some p => ⟨s.pausedDuration + (o.now - p), none⟩
    | none => s

/-- `current_pause` (src/timer.rs line 153): duration of the pause in
progress, zero when running. -/
def currentPause (now : Nat) (s : ClockState) : Nat :=
  match s.pauseStart with
  | some p => now - p
  | none => 0

/-- `active_elapsed` (src/timer.rs line 154):
`start.elapsed() - paused_duration - current_pause`.  In Rust this is a
`Duration` subtraction that panics on underflow; here `Nat` subtraction
truncates, and the no-underflow invariant is proved separately. -/
def activeElapsed (now : Nat) (s : ClockState) : Nat :=
  now - s.pausedDuration - currentPause now s

/-- `elapsed_secs = active_elapsed.as_secs()` (src/timer.rs line 156). -/
def elapsedSecs (now : Nat) (s : ClockState) : Nat :=
  activeElapsed now s / nsPerSec

/-- `remaining_secs = total_secs.saturating_sub(elapsed_secs)`
(src/timer.rs line 157); `Nat` subtraction is exactly saturating. -/
def remainingSecs (total now : Nat) (s : ClockState) : Nat :=
  total - elapsedSecs now s

/-- The clock-state invariant maintained by the tick loop: the accumulated
pause time never exceeds the pause start, which never exceeds the current
instant.  It implies that the Rust `Duration` subtractions cannot underflow. -/
def clockInv (now : Nat) (s : ClockState) : Bool :=
  match s.pauseStart with
  | some p => decide (s.pausedDuration ≤ p) && decide (p ≤ now)
  | none => decide (s.pausedDuration ≤ now)

/-- The per-tick clock states of a phase: for each observation, the state
after that iteration's bookkeeping, paired with the instant observed. -/
def clockTrace (s : ClockState) : List ClockObs → List (Nat × ClockState)
  | [] => []
  | o :: rest => (o.now, clockStep o s) :: clockTrace (clockStep o s) rest

/-- The elapsed seconds displayed at each tick of a phase started with fresh
bookkeeping (src/timer.rs lines 123-125). -/
def elapsedList (obs : List ClockObs) : List Nat :=
  (clockTrace ⟨0, none⟩ obs).map fun x => elapsedSecs x.1 x.2

/-- The remaining seconds displayed at each tick of a phase. -/
def remainingList (total : Nat) (obs : List ClockObs) : List Nat :=
  (clockTrace ⟨0, none⟩ obs).map fun x => remainingSecs total x.1 x.2

/-- One iteration of the tick loop of `timer::run`, as observed by the loop:
the three exit flags read at the top (lines 130-140), the pause flag
(line 142), the wall clock, and whether the redraw succeeded (line 172). -/
structure TickObs where
  quit : Bool
  skip : Bool
  stop : Bool
  paused : Bool
  now : Nat
  drawOk : Bool
deriving DecidableEq, Repr

/-- Clock projection of a tick observation. -/
def tickObsClock (t : TickObs) : ClockObs := ⟨t.now, t.paused⟩

/-- The tick loop of `timer::run` (src/timer.rs lines 128-186).  The result
pairs the outcome with the number of `renderer.teardown()` calls performed on
that exit path: the skip branch returns without teardown (line 135), the stop
branch tears down and returns (lines 138-139), and the quit break, redraw
failure break and completion break all fall through to the single teardown at
line 185.  `none` means the scripted ticks ran out before the loop exited. -/
def runAux (total : Nat) : List TickObs → ClockState → Option (TimerOutcome × Nat)
  | [], _ => none
  | t :: rest, s =>
    if t.quit then some (TimerOutcome.Quit, 1)
    else if t.skip then some (TimerOutcome.Skipped, 0)
    else if t.stop then some (TimerOutcome.StoppedEarly, 1)
    else
      if !t.drawOk then some (TimerOutcome.Quit, 1)
      else if remainingSecs total t.now (clockStep (tickObsClock t) s) = 0 then
        some (TimerOutcome.Completed, 1)
      else runAux total rest (clockStep (tickObsClock t) s)

/-- The clock states actually reached by the tick loop: one entry per
iteration that reaches the elapsed/remaining computation of lines 153-157
(the quit/skip/stop exits happen before it), ending at the redraw-failure or
completion break. -/
def runAuxStates (total : Nat) : List TickObs → ClockState → List (Nat × ClockState)
  | [], _ => []
  | t :: rest, s =>
    if t.quit || t.skip || t.stop then []
    else
      if !t.drawOk then [(t.now, clockStep (tickObsClock t) s)]
      else if remainingSecs total t.now (clockStep (tickObsClock t) s) = 0 then
        [(t.now, clockStep (tickObsClock t) s)]
      else
        (t.now, clockStep (tickObsClock t) s) ::
          runAuxStates total rest (clockStep (tickObsClock t) s)

/-- The exclusive terminal surface: raw input mode, alternate screen, hidden
cursor (src/render.rs `Renderer::setup` and `Renderer::teardown`). -/
structure TermState where
  rawMode : Bool
  altScreen : Bool
  cursorHidden : Bool
deriving DecidableEq, Repr

/-- The surface with nothing active. -/
def surfaceOff : TermState := ⟨false, false, false⟩

/-- The fully acquired surface. -/
def surfaceOn : TermState := ⟨true, true, true⟩

/-- `timer::run` (src/timer.rs lines 24-187).  `Renderer::setup` first
enables raw mode, then enters the alternate screen and hides the cursor in a
second write (src/render.rs lines 28-32); `rawOk` and `altOk` script the
success of the two steps.  On setup failure the function returns `Quit`
without running the loop (lines 32-35), leaving whatever the partial setup
produced.  Otherwise the loop runs; on a non-skip exit the teardown restores
the surface, on a skip exit the surface stays held (line 134). -/
def timerRun (total : Nat) (rawOk altOk : Bool) (ticks : List TickObs) :
    Option (TimerOutcome × Nat × TermState) :=
  if !rawOk then some (TimerOutcome.Quit, 0, surfaceOff)
  else if !altOk then some (TimerOutcome.Quit, 0, ⟨true, false, false⟩)
  else
    (runAux total ticks ⟨0, none⟩).map fun r =>
      (r.1, r.2, if r.1 = TimerOutcome.Skipped then surfaceOn else surfaceOff)

/-- Key codes relevant to the input listener of src/timer.rs. -/
inductive KeyCode
  | char (c : Char)
  | otherKey
deriving DecidableEq, Repr

/-- A keyboard event: its code and whether CONTROL is held. -/
structure KeyEvent where
  code : KeyCode
  ctrl : Bool
deriving DecidableEq, Repr

/-- The state shared between the input-listener thread and its phase: the
four watch-channel flags, the value of the shared `AtomicU32` round target,
and whether the listener loop is still running. -/
structure ListenerState where
  pauseFlag : Bool
  quitFlag : Bool
  skipFlag : Bool
  stopFlag : Bool
  rounds : Nat
  listening : Bool
deriving DecidableEq, Repr

/-- The key match of the input-listener thread (src/timer.rs lines 53-114),
arm by arm and in source order.  `currentRound` is `round_info.map (.0)`;
`s.rounds` is the current value of the shared counter `round_info.1`.  The
skip arm is a no-op when `ri.0 >= ri.1.load()` (lines 74-80); the add arm is
a wrapping `fetch_add` (line 95); the drop arm is the conditional
`fetch_update` that refuses to go below the current round (lines 107-109).
Unrecognized keys, including a plain q, fall to the wildcard arm (line 113).
Arms that `break` set `listening := false`. -/
def handleKey (ctx : TimerContext) (currentRound : Option Nat)
    (s : ListenerState) (k : KeyEvent) : ListenerState :=
  if k.code = KeyCode.char ' ' then
    { s with pauseFlag := !s.pauseFlag }
  else if k.code = KeyCode.char 'c' ∧ k.ctrl = true then
    { s with quitFlag := true, listening := false }
  else if k.code = KeyCode.char 's' then
    if (match currentRound with
        | some r => decide (s.rounds ≤ r)
        | none => false) then s
    else { s with skipFlag := true, listening := false }
  else if k.code = KeyCode.char 'x' then
    { s with stopFlag := true, listening := false }
  else if k.code = KeyCode.char 'a' then
    if (ctx = TimerContext.Work ∨ ctx = TimerContext.Break) ∧ currentRound.isSome then
      { s with rounds := (s.rounds + 1) % u32Mod }
    else s
  else if k.code = KeyCode.char 'd' then
    match currentRound with
    | some r =>
      if ctx = TimerContext.Work ∨ ctx = TimerContext.Break then
        { s with rounds := if r < s.rounds then s.rounds - 1 else s.rounds }
      else s
    | none => s
  else s

/-- One poll interval of the listener loop: either a key event is handled or
nothing happened, then the loop-exit check of src/timer.rs line 117 turns a
set quit flag into loop termination. -/
def listenerStep (ctx : TimerContext) (currentRound : Option Nat)
    (e : Option KeyEvent) (s : ListenerState) : ListenerState :=
  match e with
  | some k =>
    if (handleKey ctx currentRound s k).quitFlag then
      { handleKey ctx currentRound s k with listening := false }
    else handleKey ctx currentRound s k
  | none => if s.quitFlag then { s with listening := false } else s

/-- The listener loop (src/timer.rs lines 50-120): each poll interval either
delivers a key event or not; after handling, the loop exits if the quit flag
is set (line 117).  A `break` inside an arm makes all later iterations
no-ops. -/
def listenerLoop (ctx : TimerContext) (currentRound : Option Nat) :
    List (Option KeyEvent) → ListenerState → ListenerState
  | [], s => s
  | e :: rest, s =>
    if s.listening = false then s
    else listenerLoop ctx currentRound rest (listenerStep ctx currentRound e s)

/-- Events whose code is the add-round key, for counting. -/
def isAddEvent : Option KeyEvent → Bool
  | some k => k.code = KeyCode.char 'a'
  | none => false

/-- `SessionConfig` from src/config.rs. -/
structure SessionConfig where
  work : String
  breakPreset : String
  longBreak : String
  rounds : Nat
deriving DecidableEq, Repr

/-- `Config::resolve_preset` (src/config.rs lines 69-71), with the preset
map as an association list. -/
def resolvePreset (presets : List (String × String)) (name : String) :
    Option String :=
  (presets.find? fun p => p.1 = name).map fun p => p.2

/-- Leading run of decimal digits of a character list, and the rest. -/
def takeDigits : List Char → List Char × List Char
  | [] => ([], [])
  | c :: rest =>
    if c.isDigit then
      let p := takeDigits rest
      (c :: p.1, p.2)
    else ([], c :: rest)

/-- Numeric value of a digit run. -/
def digitsVal (ds : List Char) : Nat :=
  ds.foldl (fun n c => n * 10 + (c.toNat - 48)) 0

/-- One optional component `(\d+x)?` of the duration regex of
src/duration.rs line 11: greedy digits followed by the unit letter, with
full rollback when the component is absent. -/
def durComponent (unit : Char) (cs : List Char) : Option Nat × List Char :=
  match takeDigits cs with
  | ([], _) => (none, cs)
  | (ds, c :: rest) => if c = unit then (some (digitsVal ds), rest) else (none, cs)
  | (_, []) => (none, cs)

/-- `Duration::parse` (src/duration.rs lines 10-27): the anchored regex
`(\d+h)?(\d+m)?(\d+s)?` applied to the whole input, then
`hours*3600 + minutes*60 + seconds`, rejecting a zero total. -/
def parseDuration (input : String) : Except String Nat :=
  let p1 := durComponent 'h' input.toList
  let p2 := durComponent 'm' p1.2
  let p3 := durComponent 's' p2.2
  if p3.2 = [] then
    let total := (p1.1.getD 0) * 3600 + (p2.1.getD 0) * 60 + p3.1.getD 0
    if total = 0 then Except.error ("Duration must be greater than zero")
    else Except.ok total
  else Except.error ("Invalid duration format")

/-- The externally visible actions of `run_session` (src/session.rs), in
program order: a desktop notification, a log append, the three terminating
messages, the explicit alternate-screen cleanup, and the early return on an
unparsable duration. -/
inductive SessEvent
  | notifyEv (name : String)
  | logEv (name : String) (secs : Nat)
  | cancelled
  | stoppedEarly (roundsDone : Nat)
  | sessionComplete (total : Nat)
  | cleanupScreen
  | invalidDuration (name : String)
deriving DecidableEq, Repr

/-- The round loop of `run_session` (src/session.rs lines 20-138).  `loads`
scripts the values returned by the successive `total_rounds.load` calls (top
of loop, break selection, and the final count of line 137), letting the
listener threads mutate the shared counter between any two loads.
`outcomes` scripts the results of the successive `timer::run` calls.  The
work phase notifies only when not skipped (line 69-71) but logs
unconditionally (line 72); `StoppedEarly` on work reports `round - 1`
(line 63), on break reports `round` (line 120); the break duration is the
long break exactly when `round` equals the counter value re-read at
line 75.  `none` means the script ran out. -/
def sessionLoop (presets : List (String × String)) (sess : SessionConfig)
    (round : Nat) (inAlt : Bool) (loads : List Nat)
    (outcomes : List TimerOutcome) : Option (List SessEvent) :=
  match loads with
  | [] => none
  | ct :: loads1 =>
    if ct < round then
      match loads1 with
      | [] => none
      | finalTotal :: _ =>
        some ((if inAlt then [SessEvent.cleanupScreen] else []) ++
          [SessEvent.sessionComplete finalTotal])
    else
      match parseDuration ((resolvePreset presets sess.work).getD sess.work) with
      | Except.error _ => some [SessEvent.invalidDuration sess.work]
      | Except.ok workSecs =>
        match outcomes with
        | [] => none
        | o :: outcomes1 =>
          match o with
          | TimerOutcome.Quit => some [SessEvent.cancelled]
          | TimerOutcome.StoppedEarly =>
            some [SessEvent.cleanupScreen, SessEvent.stoppedEarly (round - 1)]
          | _ =>
            let evWork :=
              (if o = TimerOutcome.Skipped then [] else [SessEvent.notifyEv sess.work]) ++
                [SessEvent.logEv sess.work workSecs]
            match loads1 with
            | [] => none
            | ct2 :: loads2 =>
              let breakName := if round = ct2 then sess.longBreak else sess.breakPreset
              match parseDuration ((resolvePreset presets breakName).getD breakName) with
              | Except.error _ => some (evWork ++ [SessEvent.invalidDuration breakName])
              | Except.ok breakSecs =>
                match outcomes1 with
                | [] => none
                | o2 :: outcomes2 =>
                  match o2 with
                  | TimerOutcome.Quit => some (evWork ++ [SessEvent.cancelled])
                  | TimerOutcome.StoppedEarly =>
                    some (evWork ++
                      [SessEvent.cleanupScreen, SessEvent.stoppedEarly round])
                  | _ =>
                    let evBreak :=
                      (if o2 = TimerOutcome.Skipped then []
                        else [SessEvent.notifyEv breakName]) ++
                        [SessEvent.logEv breakName breakSecs]
                    (sessionLoop presets sess (round + 1)
                        (o2 = TimerOutcome.Skipped) loads2 outcomes2).map
                      fun evs => evWork ++ evBreak ++ evs

/-- `run_session` starts at round 1 with the surface not held
(src/session.rs lines 17-18). -/
def runSession (presets : List (String × String)) (sess : SessionConfig)
    (loads : List Nat) (outcomes : List TimerOutcome) :
    Option (List SessEvent) :=
  sessionLoop presets sess 1 false loads outcomes

/-- The break-phase continuation of one round of `run_session`
(src/session.rs lines 74-131), with the work-phase events factored out:
break selection re-reads the round target (`ct2`, src/session.rs line 75),
parses the selected duration, runs the scripted break outcome, and on a
non-aborted break recurses into the next round.  `sessionLoop` is proved
equal to the composition of its work phase with this continuation. -/
def breakCont (presets : List (String × String)) (sess : SessionConfig)
    (round : Nat) (loads1 : List Nat) (outcomes1 : List TimerOutcome) :
    Option (List SessEvent) :=
  match loads1 with
  | [] => none
  | ct2 :: loads2 =>
    match parseDuration ((resolvePreset presets
        (if round = ct2 then sess.longBreak else sess.breakPreset)).getD
        (if round = ct2 then sess.longBreak else sess.breakPreset)) with
    | Except.error _ =>
      some [SessEvent.invalidDuration
        (if round = ct2 then sess.longBreak else sess.breakPreset)]
    | Except.ok breakSecs =>
      match outcomes1 with
      | [] => none
      | o2 :: outcomes2 =>
        match o2 with
        | TimerOutcome.Quit => some [SessEvent.cancelled]
        | TimerOutcome.StoppedEarly =>
          some [SessEvent.cleanupScreen, SessEvent.stoppedEarly round]
        | _ =>
          (sessionLoop presets sess (round + 1) (o2 = TimerOutcome.Skipped)
              loads2 outcomes2).map
            fun evs =>
              ((if o2 = TimerOutcome.Skipped then []
                else [SessEvent.notifyEv
                  (if round = ct2 then sess.longBreak else sess.breakPreset)]) ++
                [SessEvent.logEv
                  (if round = ct2 then sess.longBreak else sess.breakPreset)
                  breakSecs]) ++ evs

/-- The seconds recorded by the log entries of an event list. -/
def loggedSecs (evs : List SessEvent) : List Nat :=
  evs.filterMap fun e =>
    match e with
    | SessEvent.logEv _ secs => some secs
    | _ => none

/-- The spec's words for the state after a failed terminal acquisition:
no component of raw mode, alternate screen, or hidden cursor remains
active. -/
def noPartialState (st : TermState) : Prop :=
  st.rawMode = false ∧ st.altScreen = false ∧ st.cursorHidden = false

instance : DecidablePred noPartialState := fun st => by
  unfold noPartialState
  infer_instance

/-! ## Clock lemmas shared by the Phase Clock and Timer Engine claims -/

theorem clockInv_step (o : ClockObs) (s : ClockState) (n : Nat)
    (h : clockInv n s = true) (hle : n ≤ o.now) :
    clockInv o.now (clockStep o s) = true := by
  unfold clockInv clockStep at *
  cases hp : s.pauseStart with
  | none =>
    rw [hp] at h
    cases hb : o.paused <;> simp_all
    all_goals omega
  | some p =>
    rw [hp] at h
    cases hb : o.paused <;> simp_all
    all_goals omega

theorem currentPause_underflow_le (m : Nat) (s : ClockState)
    (h : clockInv m s = true) :
    s.pausedDuration + currentPause m s ≤ m := by
  unfold clockInv currentPause at *
  cases hp : s.pauseStart <;> simp_all <;> omega

theorem activeElapsed_step_le (o : ClockObs) (s : ClockState) (n : Nat)
    (h : clockInv n s = true) (hle : n ≤ o.now) :
    activeElapsed n s ≤ activeElapsed o.now (clockStep o s) := by
  unfold clockInv activeElapsed currentPause clockStep at *
  cases hp : s.pauseStart <;> cases hb : o.paused <;> simp_all <;> omega

theorem activeElapsed_step_paused (o : ClockObs) (s : ClockState) (n : Nat)
    (h : clockInv n s = true) (hps : s.pauseStart ≠ none) (hb : o.paused = true)
    (hle : n ≤ o.now) :
    activeElapsed o.now (clockStep o s) = activeElapsed n s := by
  unfold clockInv activeElapsed currentPause clockStep at *
  cases hp : s.pauseStart <;> simp_all <;> omega

theorem clockStep_paused_pauseStart (o : ClockObs) (s : ClockState)
    (hb : o.paused = true) : (clockStep o s).pauseStart ≠ none := by
  unfold clockStep
  cases hp : s.pauseStart <;> simp_all

theorem elapsedSecs_step_le (o : ClockObs) (s : ClockState) (n : Nat)
    (h : clockInv n s = true) (hle : n ≤ o.now) :
    elapsedSecs n s ≤ elapsedSecs o.now (clockStep o s) :=
  Nat.div_le_div_right (activeElapsed_step_le o s n h hle)

theorem elapsedSecs_step_paused (o : ClockObs) (s : ClockState) (n : Nat)
    (h : clockInv n s = true) (hps : s.pauseStart ≠ none) (hb : o.paused = true)
    (hle : n ≤ o.now) :
    elapsedSecs o.now (clockStep o s) = elapsedSecs n s := by
  unfold elapsedSecs
  rw [activeElapsed_step_paused o s n h hps hb hle]

theorem remainingSecs_step_ge (total : Nat) (o : ClockObs) (s : ClockState)
    (n : Nat) (h : clockInv n s = true) (hle : n ≤ o.now) :
    remainingSecs total o.now (clockStep o s) ≤ remainingSecs total n s :=
  Nat.sub_le_sub_left (elapsedSecs_step_le o s n h hle) total

theorem clockTrace_chain (total : Nat) :
    ∀ (obs : List ClockObs) (s : ClockState) (n : Nat),
      clockInv n s = true →
      List.Chain (fun a b => a ≤ b) n (obs.map ClockObs.now) →
      List.Chain' (fun a b => a ≤ b)
          ((clockTrace s obs).map fun x => elapsedSecs x.1 x.2) ∧
        List.Chain' (fun a b => b ≤ a)
          ((clockTrace s obs).map fun x => remainingSecs total x.1 x.2) ∧
        List.Chain' (fun x y => x.1.paused = true → y.1.paused = true → y.2 = x.2)
          (obs.zip ((clockTrace s obs).map fun x => elapsedSecs x.1 x.2)) := by
  intro obs
  induction obs with
  | nil => intro s n _ _; simp [clockTrace]
  | cons o rest ih =>
    intro s n hinv hchain
    rw [List.map_cons, List.chain_cons] at hchain
    obtain ⟨hno, hchain⟩ := hchain
    have hinv1 : clockInv o.now (clockStep o s) = true :=
      clockInv_step o s n hinv hno
    obtain ⟨ih1, ih2, ih3⟩ := ih (clockStep o s) o.now hinv1 hchain
    cases rest with
    | nil => simp [clockTrace]
    | cons o2 rest2 =>
      rw [List.map_cons, List.chain_cons] at hchain
      obtain ⟨h12, _⟩ := hchain
      simp only [clockTrace, List.map_cons, List.zip_cons_cons] at ih1 ih2 ih3 ⊢
      refine ⟨List.Chain'.cons ?_ ih1, List.Chain'.cons ?_ ih2,
        List.Chain'.cons ?_ ih3⟩
      · exact elapsedSecs_step_le o2 (clockStep o s) o.now hinv1 h12
      · exact remainingSecs_step_ge total o2 (clockStep o s) o.now hinv1 h12
      · intro hb1 hb2
        exact elapsedSecs_step_paused o2 (clockStep o s) o.now hinv1
          (clockStep_paused_pauseStart o s hb1) hb2 h12

theorem chain_zero_map_now (obs : List ClockObs)
    (hmono : List.Chain' (fun a b => a.now ≤ b.now) obs) :
    List.Chain (fun a b => a ≤ b) 0 (obs.map ClockObs.now) := by
  have h1 : List.Chain' (fun a b => a ≤ b) (obs.map ClockObs.now) :=
    (List.chain'_map ClockObs.now).mpr hmono
  cases obs with
  | nil => simp
  | cons o rest =>
    rw [List.map_cons] at h1 ⊢
    exact List.Chain.cons (Nat.zero_le _) h1

theorem chain_zero_map_tick_now (ticks : List TickObs)
    (hmono : List.Chain' (fun a b => a.now ≤ b.now) ticks) :
    List.Chain (fun a b => a ≤ b) 0 (ticks.map TickObs.now) := by
  have h1 : List.Chain' (fun a b => a ≤ b) (ticks.map TickObs.now) :=
    (List.chain'_map TickObs.now).mpr hmono
  cases ticks with
  | nil => simp
  | cons t rest =>
    rw [List.map_cons] at h1 ⊢
    exact List.Chain.cons (Nat.zero_le _) h1

/-- Claim C9: for every phase total and every sequence of tick observations with
non-decreasing wall-clock instants, the computed elapsed seconds never
decrease from one tick to the next — across any number of pause/resume
cycles — the computed remaining seconds never increase (in particular they
are non-increasing while running), and between two consecutive ticks that
are both paused the computed elapsed (hence remaining) value is exactly
constant. -/
theorem clock_pause_monotone (total : Nat) (obs : List ClockObs)
    (hmono : List.Chain' (fun a b => a.now ≤ b.now) obs) :
    List.Chain' (fun a b => a ≤ b) (elapsedList obs) ∧
      List.Chain' (fun a b => b ≤ a) (remainingList total obs) ∧
      List.Chain' (fun x y => x.1.paused = true → y.1.paused = true → y.2 = x.2)
        (obs.zip (elapsedList obs)) := by
  unfold elapsedList remainingList
  exact clockTrace_chain total obs ⟨0, none⟩ 0 rfl (chain_zero_map_now obs hmono)

/-- Witness for C9 at a concrete five-tick run (run, pause, pause, resume,
run). -/
theorem clock_pause_monotone_witness :
    List.Chain' (fun a b => a ≤ b)
        (elapsedList [⟨1000000000, false⟩, ⟨2500000000, true⟩,
          ⟨4000000000, true⟩, ⟨5000000000, false⟩, ⟨7000000000, false⟩]) ∧
      List.Chain' (fun a b => b ≤ a)
        (remainingList 10
          [⟨1000000000, false⟩, ⟨2500000000, true⟩, ⟨4000000000, true⟩,
            ⟨5000000000, false⟩, ⟨7000000000, false⟩]) ∧
      List.Chain' (fun x y => x.1.paused = true → y.1.paused = true → y.2 = x.2)
        (([⟨1000000000, false⟩, ⟨2500000000, true⟩, ⟨4000000000, true⟩,
            ⟨5000000000, false⟩, ⟨7000000000, false⟩] : List ClockObs).zip
          (elapsedList [⟨1000000000, false⟩, ⟨2500000000, true⟩,
            ⟨4000000000, true⟩, ⟨5000000000, false⟩, ⟨7000000000, false⟩])) :=
  clock_pause_monotone 10
    [⟨1000000000, false⟩, ⟨2500000000, true⟩, ⟨4000000000, true⟩,
      ⟨5000000000, false⟩, ⟨7000000000, false⟩] (by simp [List.chain'_cons])

theorem runAuxStates_clockInv (total : Nat) :
    ∀ (ticks : List TickObs) (s : ClockState) (n : Nat),
      clockInv n s = true →
      List.Chain (fun a b => a ≤ b) n (ticks.map TickObs.now) →
      ∀ x ∈ runAuxStates total ticks s, clockInv x.1 x.2 = true := by
  intro ticks
  induction ticks with
  | nil => intro s n _ _ x hx; simp [runAuxStates] at hx
  | cons t rest ih =>
    intro s n hinv hchain x hx
    rw [List.map_cons, List.chain_cons] at hchain
    obtain ⟨hn, hchain⟩ := hchain
    have hinv1 : clockInv t.now (clockStep (tickObsClock t) s) = true :=
      clockInv_step (tickObsClock t) s n hinv hn
    simp only [runAuxStates] at hx
    split at hx
    · simp at hx
    · split at hx
      · rw [List.mem_singleton] at hx
        rw [hx]
        exact hinv1
      · split at hx
        · rw [List.mem_singleton] at hx
          rw [hx]
          exact hinv1
        · rcases List.mem_cons.mp hx with hx | hx
          · rw [hx]
            exact hinv1
          · exact ih (clockStep (tickObsClock t) s) t.now hinv1 hchain x hx

/-- Claim C10: at every tick actually reached by the Timer Engine loop (with
non-decreasing wall-clock instants), the elapsed computation never
underflows — the accumulated plus current pause durations never exceed the
wall time since start — and the remaining seconds equal
`total - elapsed` (`Nat` subtraction is exactly `saturating_sub`), hence
always lie in `[0, total]`. -/
theorem tick_no_underflow (total : Nat) (ticks : List TickObs)
    (hmono : List.Chain' (fun a b => a.now ≤ b.now) ticks) :
    ∀ x ∈ runAuxStates total ticks ⟨0, none⟩,
      x.2.pausedDuration + currentPause x.1 x.2 ≤ x.1 ∧
        remainingSecs total x.1 x.2 = total - elapsedSecs x.1 x.2 ∧
        remainingSecs total x.1 x.2 ≤ total := by
  intro x hx
  have hinv : clockInv x.1 x.2 = true :=
    runAuxStates_clockInv total ticks ⟨0, none⟩ 0 rfl
      (chain_zero_map_tick_now ticks hmono) x hx
  exact ⟨currentPause_underflow_le x.1 x.2 hinv, rfl, Nat.sub_le _ _⟩

/-- Witness for C10 at a concrete paused tick. -/
theorem tick_no_underflow_witness :
    (⟨0, some 1000000000⟩ : ClockState).pausedDuration +
        currentPause 1000000000 ⟨0, some 1000000000⟩ ≤ 1000000000 ∧
      remainingSecs 5 1000000000 ⟨0, some 1000000000⟩ =
        5 - elapsedSecs 1000000000 ⟨0, some 1000000000⟩ ∧
      remainingSecs 5 1000000000 ⟨0, some 1000000000⟩ ≤ 5 :=
  tick_no_underflow 5 [⟨false, false, false, true, 1000000000, true⟩]
    (List.chain'_singleton _) (1000000000, ⟨0, some 1000000000⟩) (by decide)

/-! ## Timer Engine surface lemmas -/

theorem runAux_release (total : Nat) :
    ∀ (ticks : List TickObs) (s : ClockState) (r : TimerOutcome × Nat),
      runAux total ticks s = some r →
      (r.1 = TimerOutcome.Skipped ∧ r.2 = 0) ∨
        (r.1 ≠ TimerOutcome.Skipped ∧ r.2 = 1) := by
  intro ticks
  induction ticks with
  | nil => intro s r h; simp [runAux] at h
  | cons t rest ih =>
    intro s r h
    simp only [runAux] at h
    split at h
    · injection h with h1
      subst h1
      exact Or.inr ⟨by decide, rfl⟩
    · split at h
      · injection h with h1
        subst h1
        exact Or.inl ⟨rfl, rfl⟩
      · split at h
        · injection h with h1
          subst h1
          exact Or.inr ⟨by decide, rfl⟩
        · split at h
          · injection h with h1
            subst h1
            exact Or.inr ⟨by decide, rfl⟩
          · split at h
            · injection h with h1
              subst h1
              exact Or.inr ⟨by decide, rfl⟩
            · exact ih _ r h

/-- Claim C1: for every Timer Engine invocation whose terminal acquisition
succeeded and whose tick loop terminates, a non-`Skipped` outcome
(`Completed`, `StoppedEarly`, `Quit` — including the redraw-failure exit)
performs exactly one surface teardown and ends with the surface released,
while a `Skipped` outcome performs no teardown and leaves the surface
held. -/
theorem timer_release_once (total : Nat) (ticks : List TickObs)
    (o : TimerOutcome) (teardowns : Nat) (st : TermState)
    (h : timerRun total true true ticks = some (o, teardowns, st)) :
    (o = TimerOutcome.Skipped → teardowns = 0 ∧ st = surfaceOn) ∧
      (o ≠ TimerOutcome.Skipped → teardowns = 1 ∧ st = surfaceOff) := by
  unfold timerRun at h
  cases hr : runAux total ticks ⟨0, none⟩ with
  | none => rw [hr] at h; simp at h
  | some r =>
    obtain ⟨r1, r2⟩ := r
    rw [hr] at h
    simp at h
    obtain ⟨h1, h2, h3⟩ := h
    subst h1
    subst h2
    subst h3
    rcases runAux_release total ticks ⟨0, none⟩ (r1, r2) hr with ⟨hs, hz⟩ | ⟨hs, hz⟩
    · refine ⟨fun _ => ⟨hz, ?_⟩, fun hne => absurd hs hne⟩
      rw [if_pos hs]
    · refine ⟨fun he => absurd he hs, fun _ => ⟨hz, ?_⟩⟩
      rw [if_neg hs]

/-- Witness for C1 at a stop-key exit. -/
theorem timer_release_once_witness :
    (TimerOutcome.StoppedEarly = TimerOutcome.Skipped →
        (1 : Nat) = 0 ∧ surfaceOff = surfaceOn) ∧
      (TimerOutcome.StoppedEarly ≠ TimerOutcome.Skipped →
        (1 : Nat) = 1 ∧ surfaceOff = surfaceOff) :=
  timer_release_once 5 [⟨false, false, true, false, 0, true⟩]
    TimerOutcome.StoppedEarly 1 surfaceOff rfl

/-- Claim C6 counterexample: when raw mode is enabled but the alternate-screen and
hide-cursor write fails, `timer::run` returns `Quit` without running the
loop, yet raw mode — a component of the partial terminal state — remains
active, contradicting the claim that no partial state is left behind. -/
theorem setup_partial_raw_counterexample :
    timerRun 60 true false [] =
        some (TimerOutcome.Quit, 0, ⟨true, false, false⟩) ∧
      ¬ noPartialState ⟨true, false, false⟩ := by
  constructor
  · rfl
  · decide

/-- Claim C6 amended: if terminal acquisition fails, the Timer Engine returns
`Quit` immediately with zero teardowns and without running the tick loop
(the result does not depend on the ticks); when enabling raw mode itself
fails nothing is left active, but when raw mode was enabled and the
alternate-screen/hide-cursor step fails, raw mode remains active. -/
theorem setup_failure_quit (total : Nat) (ticks : List TickObs) :
    timerRun total false true ticks = some (TimerOutcome.Quit, 0, surfaceOff) ∧
      timerRun total false false ticks =
        some (TimerOutcome.Quit, 0, surfaceOff) ∧
      timerRun total true false ticks =
        some (TimerOutcome.Quit, 0, ⟨true, false, false⟩) :=
  ⟨rfl, rfl, rfl⟩

/-! ## Input Listener lemmas -/

theorem listenerLoop_done (ctx : TimerContext) (cr : Option Nat) :
    ∀ (evs : List (Option KeyEvent)) (s : ListenerState),
      s.listening = false → listenerLoop ctx cr evs s = s := by
  intro evs
  induction evs with
  | nil => intro s _; rfl
  | cons e rest _ => intro s hs; simp [listenerLoop, hs]

theorem listenerStep_rounds_some (ctx : TimerContext) (cr : Option Nat)
    (k : KeyEvent) (s : ListenerState) :
    (listenerStep ctx cr (some k) s).rounds = (handleKey ctx cr s k).rounds := by
  by_cases h : (handleKey ctx cr s k).quitFlag = true <;> simp [listenerStep, h]

theorem listenerStep_rounds_none (ctx : TimerContext) (cr : Option Nat)
    (s : ListenerState) :
    (listenerStep ctx cr none s).rounds = s.rounds := by
  by_cases h : s.quitFlag = true <;> simp [listenerStep, h]

theorem handleKey_rounds_nonadd (ctx : TimerContext) (cr : Option Nat)
    (s : ListenerState) (k : KeyEvent) (h : isAddEvent (some k) = false) :
    (handleKey ctx cr s k).rounds ≤ s.rounds ∧
      (∀ r, cr = some r → r ≤ s.rounds → r ≤ (handleKey ctx cr s k).rounds) := by
  unfold isAddEvent at h
  simp at h
  unfold handleKey
  cases cr with
  | none =>
    split_ifs <;> simp_all
  | some r0 =>
    split_ifs <;> simp_all
    all_goals try split_ifs
    all_goals omega

theorem handleKey_rounds_add (ctx : TimerContext) (cr : Option Nat)
    (s : ListenerState) (k : KeyEvent) (h : isAddEvent (some k) = true)
    (hlt : s.rounds + 1 < u32Mod) :
    (handleKey ctx cr s k).rounds = s.rounds ∨
      (handleKey ctx cr s k).rounds = s.rounds + 1 := by
  unfold isAddEvent at h
  simp at h
  unfold handleKey
  rw [h]
  split_ifs <;> simp_all
  exact Or.inr (Nat.mod_eq_of_lt hlt)

theorem listenerLoop_rounds_floor (ctx : TimerContext) (r : Nat) :
    ∀ (evs : List (Option KeyEvent)) (s : ListenerState),
      r ≤ s.rounds →
      s.rounds + evs.countP isAddEvent < u32Mod →
      r ≤ (listenerLoop ctx (some r) evs s).rounds := by
  intro evs
  induction evs with
  | nil => intro s hr _; exact hr
  | cons e rest ih =>
    intro s hr hb
    rw [List.countP_cons] at hb
    rw [listenerLoop]
    split
    · exact hr
    · cases e with
      | none =>
        refine ih (listenerStep ctx (some r) none s) ?_ ?_
        · rw [listenerStep_rounds_none]
          exact hr
        · rw [listenerStep_rounds_none]
          simp [isAddEvent] at hb
          omega
      | some k =>
        cases hadd : isAddEvent (some k) with
        | false =>
          obtain ⟨hle, hge⟩ := handleKey_rounds_nonadd ctx (some r) s k hadd
          refine ih (listenerStep ctx (some r) (some k) s) ?_ ?_
          · rw [listenerStep_rounds_some]
            exact hge r rfl hr
          · rw [listenerStep_rounds_some]
            rw [hadd] at hb
            simp at hb
            omega
        | true =>
          rw [hadd] at hb
          simp at hb
          have hlt : s.rounds + 1 < u32Mod := by omega
          rcases handleKey_rounds_add ctx (some r) s k hadd hlt with he | he
          · refine ih (listenerStep ctx (some r) (some k) s) ?_ ?_
            · rw [listenerStep_rounds_some, he]
              omega
            · rw [listenerStep_rounds_some, he]
              omega
          · refine ih (listenerStep ctx (some r) (some k) s) ?_ ?_
            · rw [listenerStep_rounds_some, he]
              omega
            · rw [listenerStep_rounds_some, he]
              omega

/-- Claim C3: while round `r` is executing, the shared RoundTarget never drops
below `r` under any interleaving of listener key events whose add-round
presses do not overflow the `u32` counter; a drop-round press arriving when
the target already equals `r` is a no-op on the whole listener state;
add-round presses in a session context are always applied; and from target 4
while executing round 2, three drop presses leave the target at the floor 2,
not lower. -/
theorem round_target_floor (r : Nat) :
    (∀ (ctx : TimerContext) (evs : List (Option KeyEvent)) (s : ListenerState),
        r ≤ s.rounds →
        s.rounds + evs.countP isAddEvent < u32Mod →
        r ≤ (listenerLoop ctx (some r) evs s).rounds) ∧
      (∀ (ctx : TimerContext) (s : ListenerState),
        ctx = TimerContext.Work ∨ ctx = TimerContext.Break →
        s.rounds + 1 < u32Mod →
        (handleKey ctx (some r) s ⟨KeyCode.char 'a', false⟩).rounds =
          s.rounds + 1) ∧
      (∀ (ctx : TimerContext) (s : ListenerState),
        s.rounds = r →
        handleKey ctx (some r) s ⟨KeyCode.char 'd', false⟩ = s) ∧
      (listenerLoop TimerContext.Work (some 2)
          [some ⟨KeyCode.char 'd', false⟩, some ⟨KeyCode.char 'd', false⟩,
            some ⟨KeyCode.char 'd', false⟩]
          ⟨false, false, false, false, 4, true⟩).rounds = 2 := by
  refine ⟨?_, ?_, ?_, ?_⟩
  · intro ctx evs s hr hb
    exact listenerLoop_rounds_floor ctx r evs s hr hb
  · intro ctx s hctx hlt
    unfold handleKey
    rcases hctx with h | h <;> subst h <;> simp <;> exact Nat.mod_eq_of_lt hlt
  · intro ctx s hs
    unfold handleKey
    subst hs
    cases ctx <;> simp
  · rfl

/-- Witness for C3 with a concrete drop below floor attempt. -/
theorem round_target_floor_witness :
    2 ≤ (listenerLoop TimerContext.Work (some 2)
        [some ⟨KeyCode.char 'd', false⟩, some ⟨KeyCode.char 'd', false⟩]
        ⟨false, false, false, false, 3, true⟩).rounds ∧
      (handleKey TimerContext.Break (some 2)
          ⟨false, false, false, false, 3, true⟩
          ⟨KeyCode.char 'a', false⟩).rounds = 3 + 1 ∧
      handleKey TimerContext.Work (some 2)
          ⟨false, false, false, false, 2, true⟩ ⟨KeyCode.char 'd', false⟩ =
        ⟨false, false, false, false, 2, true⟩ :=
  ⟨(round_target_floor 2).1 TimerContext.Work
      [some ⟨KeyCode.char 'd', false⟩, some ⟨KeyCode.char 'd', false⟩]
      ⟨false, false, false, false, 3, true⟩ (by decide) (by decide),
    (round_target_floor 2).2.1 TimerContext.Break
      ⟨false, false, false, false, 3, true⟩ (Or.inr rfl) (by decide),
    (round_target_floor 2).2.2.1 TimerContext.Work
      ⟨false, false, false, false, 2, true⟩ rfl⟩

/-- Claim C2 counterexample: during the break phase of the final round (executing
round 2 with RoundTarget 2, context `Break`), the skip key is suppressed —
the handler leaves the listener state unchanged, the skip flag stays false
and the listener keeps listening — contradicting the claim that skip is
suppressed only on the work phase of the final round and works on its break
phase. -/
theorem skip_final_break_counterexample :
    handleKey TimerContext.Break (some 2) ⟨false, false, false, false, 2, true⟩
        ⟨KeyCode.char 's', false⟩ = ⟨false, false, false, false, 2, true⟩ ∧
      (⟨false, false, false, false, 2, true⟩ : ListenerState).skipFlag = false ∧
      (⟨false, false, false, false, 2, true⟩ : ListenerState).listening = true :=
  ⟨rfl, rfl, rfl⟩

/-- Claim C2 amended: the skip key is suppressed whenever round info is present
and the current round is at least the RoundTarget — which holds on both the
work and the break phase of the final round, in any context; in phases of
earlier rounds, and in standalone timers (no round info), skip sets the skip
flag and stops the listener. -/
theorem skip_suppression (ctx : TimerContext) (cr : Option Nat)
    (s : ListenerState) (ctl : Bool) :
    (∀ r, cr = some r → s.rounds ≤ r →
        handleKey ctx cr s ⟨KeyCode.char 's', ctl⟩ = s) ∧
      (∀ r, cr = some r → r < s.rounds →
        handleKey ctx cr s ⟨KeyCode.char 's', ctl⟩ =
          { s with skipFlag := true, listening := false }) ∧
      (cr = none →
        handleKey ctx cr s ⟨KeyCode.char 's', ctl⟩ =
          { s with skipFlag := true, listening := false }) := by
  refine ⟨?_, ?_, ?_⟩
  · intro r hcr hle
    subst hcr
    simp [handleKey, hle]
  · intro r hcr hlt
    subst hcr
    simp [handleKey, Nat.not_le.mpr hlt]
  · intro hcr
    subst hcr
    simp [handleKey]

/-- Witness for C2 amended: suppressed on the final break, active on an
earlier round's phase. -/
theorem skip_suppression_witness :
    handleKey TimerContext.Break (some 3) ⟨false, false, false, false, 3, true⟩
        ⟨KeyCode.char 's', false⟩ = ⟨false, false, false, false, 3, true⟩ ∧
      handleKey TimerContext.Work (some 1) ⟨false, false, false, false, 3, true⟩
        ⟨KeyCode.char 's', false⟩ = ⟨false, false, true, false, 3, false⟩ :=
  ⟨(skip_suppression TimerContext.Break (some 3)
      ⟨false, false, false, false, 3, true⟩ false).1 3 rfl (by decide),
    (skip_suppression TimerContext.Work (some 1)
      ⟨false, false, false, false, 3, true⟩ false).2.1 1 rfl (by decide)⟩

/-- Claim C4 counterexample: pressing the plain q key matches no arm of the key
handler — the listener state is unchanged, the quit flag stays false and
the listener keeps listening — contradicting the claim that the q key sets
the quit flag and stops the listener. -/
theorem plain_q_noop_counterexample :
    handleKey TimerContext.Work (some 1) ⟨false, false, false, false, 2, true⟩
        ⟨KeyCode.char 'q', false⟩ = ⟨false, false, false, false, 2, true⟩ ∧
      (⟨false, false, false, false, 2, true⟩ : ListenerState).quitFlag = false ∧
      (⟨false, false, false, false, 2, true⟩ : ListenerState).listening = true :=
  ⟨rfl, rfl, rfl⟩

/-- Claim C4 amended: the Ctrl+C quit combo sets the quit flag and stops the
listener in every context, any round info, and any listener state, at any
point of the event stream; the plain q key (with or without Ctrl) is a
no-op. -/
theorem quit_combo (ctx : TimerContext) (cr : Option Nat) (s : ListenerState)
    (ctl : Bool) (evs : List (Option KeyEvent)) :
    handleKey ctx cr s ⟨KeyCode.char 'c', true⟩ =
        { s with quitFlag := true, listening := false } ∧
      handleKey ctx cr s ⟨KeyCode.char 'q', ctl⟩ = s ∧
      (s.listening = true →
        listenerLoop ctx cr (some ⟨KeyCode.char 'c', true⟩ :: evs) s =
          { s with quitFlag := true, listening := false }) := by
  have h1 : handleKey ctx cr s ⟨KeyCode.char 'c', true⟩ =
      { s with quitFlag := true, listening := false } := by
    simp [handleKey]
  have h2 : handleKey ctx cr s ⟨KeyCode.char 'q', ctl⟩ = s := by
    unfold handleKey
    cases cr <;> simp
  refine ⟨h1, h2, ?_⟩
  intro hl
  rw [listenerLoop]
  rw [if_neg (by rw [hl]; simp)]
  have hstep : listenerStep ctx cr (some ⟨KeyCode.char 'c', true⟩) s =
      { s with quitFlag := true, listening := false } := by
    simp [listenerStep, h1]
  rw [hstep]
  exact listenerLoop_done ctx cr evs _ rfl

/-- Witness for C4 amended at a concrete listener state. -/
theorem quit_combo_witness :
    handleKey TimerContext.Standalone none ⟨false, false, false, false, 0, true⟩
        ⟨KeyCode.char 'c', true⟩ = ⟨false, true, false, false, 0, false⟩ ∧
      handleKey TimerContext.Standalone none
          ⟨false, false, false, false, 0, true⟩ ⟨KeyCode.char 'q', false⟩ =
        ⟨false, false, false, false, 0, true⟩ ∧
      listenerLoop TimerContext.Standalone none
          [some ⟨KeyCode.char 'c', true⟩, some ⟨KeyCode.char 'x', false⟩]
          ⟨false, false, false, false, 0, true⟩ =
        ⟨false, true, false, false, 0, false⟩ :=
  ⟨(quit_combo TimerContext.Standalone none ⟨false, false, false, false, 0, true⟩
      false [some ⟨KeyCode.char 'x', false⟩]).1,
    (quit_combo TimerContext.Standalone none ⟨false, false, false, false, 0, true⟩
      false [some ⟨KeyCode.char 'x', false⟩]).2.1,
    (quit_combo TimerContext.Standalone none ⟨false, false, false, false, 0, true⟩
      false [some ⟨KeyCode.char 'x', false⟩]).2.2 rfl⟩

/-! ## Session Orchestrator lemmas -/

theorem sessionLoop_work_split (presets : List (String × String))
    (sess : SessionConfig) (round : Nat) (inAlt : Bool) (ct : Nat)
    (loads1 : List Nat) (outcomes1 : List TimerOutcome) (workSecs : Nat)
    (o : TimerOutcome)
    (hr : round ≤ ct)
    (hw : parseDuration ((resolvePreset presets sess.work).getD sess.work) =
      Except.ok workSecs)
    (ho : o = TimerOutcome.Completed ∨ o = TimerOutcome.Skipped) :
    sessionLoop presets sess round inAlt (ct :: loads1) (o :: outcomes1) =
      (breakCont presets sess round loads1 outcomes1).map
        fun t =>
          ((if o = TimerOutcome.Skipped then []
            else [SessEvent.notifyEv sess.work]) ++
            [SessEvent.logEv sess.work workSecs]) ++ t := by
  rcases ho with ho | ho <;> subst ho
  all_goals
    rw [sessionLoop.eq_def]
    dsimp only
    rw [if_neg (by omega : ¬ ct < round), hw]
    dsimp only
    cases loads1 with
    | nil => simp [breakCont]
    | cons ct2 loads2 =>
      dsimp only
      cases hpb : parseDuration ((resolvePreset presets
          (if round = ct2 then sess.longBreak else sess.breakPreset)).getD
          (if round = ct2 then sess.longBreak else sess.breakPreset)) with
      | error e => simp [breakCont, hpb]
      | ok bs =>
        dsimp only
        cases outcomes1 with
        | nil => simp [breakCont, hpb]
        | cons o2 outcomes2 =>
          dsimp only
          cases o2 <;> simp [breakCont, hpb, Option.map_map] <;> rfl

theorem breakCont_split (presets : List (String × String))
    (sess : SessionConfig) (round ct2 : Nat) (loads2 : List Nat)
    (outcomes2 : List TimerOutcome) (breakSecs : Nat) (o2 : TimerOutcome)
    (hb : parseDuration ((resolvePreset presets
        (if round = ct2 then sess.longBreak else sess.breakPreset)).getD
        (if round = ct2 then sess.longBreak else sess.breakPreset)) =
      Except.ok breakSecs)
    (ho2 : o2 = TimerOutcome.Completed ∨ o2 = TimerOutcome.Skipped) :
    breakCont presets sess round (ct2 :: loads2) (o2 :: outcomes2) =
      (sessionLoop presets sess (round + 1) (o2 = TimerOutcome.Skipped)
          loads2 outcomes2).map
        fun t =>
          ((if o2 = TimerOutcome.Skipped then []
            else [SessEvent.notifyEv
              (if round = ct2 then sess.longBreak else sess.breakPreset)]) ++
            [SessEvent.logEv
              (if round = ct2 then sess.longBreak else sess.breakPreset)
              breakSecs]) ++ t := by
  rcases ho2 with h | h <;> subst h <;> simp [breakCont, hb]

theorem breakCont_abort (presets : List (String × String))
    (sess : SessionConfig) (round ct2 : Nat) (loads2 : List Nat)
    (outcomes2 : List TimerOutcome) (breakSecs : Nat)
    (hb : parseDuration ((resolvePreset presets
        (if round = ct2 then sess.longBreak else sess.breakPreset)).getD
        (if round = ct2 then sess.longBreak else sess.breakPreset)) =
      Except.ok breakSecs) :
    breakCont presets sess round (ct2 :: loads2)
        (TimerOutcome.Quit :: outcomes2) = some [SessEvent.cancelled] ∧
      breakCont presets sess round (ct2 :: loads2)
          (TimerOutcome.StoppedEarly :: outcomes2) =
        some [SessEvent.cleanupScreen, SessEvent.stoppedEarly round] := by
  constructor <;> simp [breakCont, hb]

/-- Claim C7: if the work phase of round `round` returns `Quit` or `StoppedEarly`,
the orchestrator stops at once — the result does not depend on the remaining
script, no break phase runs, and no notification or log entry is emitted for
the aborted phase — reporting `round - 1` finished rounds on `StoppedEarly`;
if the break phase aborts (after a completed or skipped work phase), the
session likewise stops with only the work phase's events emitted, reporting
`round` finished rounds on `StoppedEarly`. -/
theorem session_abort (presets : List (String × String))
    (sess : SessionConfig) (round : Nat) (inAlt : Bool) (ct : Nat)
    (loads1 : List Nat) (outcomes1 : List TimerOutcome) (workSecs : Nat)
    (hr : round ≤ ct)
    (hw : parseDuration ((resolvePreset presets sess.work).getD sess.work) =
      Except.ok workSecs) :
    sessionLoop presets sess round inAlt (ct :: loads1)
        (TimerOutcome.Quit :: outcomes1) = some [SessEvent.cancelled] ∧
      sessionLoop presets sess round inAlt (ct :: loads1)
          (TimerOutcome.StoppedEarly :: outcomes1) =
        some [SessEvent.cleanupScreen, SessEvent.stoppedEarly (round - 1)] ∧
      (∀ (o : TimerOutcome) (ct2 : Nat) (loads2 : List Nat)
          (outcomes2 : List TimerOutcome) (breakSecs : Nat),
        o = TimerOutcome.Completed ∨ o = TimerOutcome.Skipped →
        parseDuration ((resolvePreset presets
            (if round = ct2 then sess.longBreak else sess.breakPreset)).getD
            (if round = ct2 then sess.longBreak else sess.breakPreset)) =
          Except.ok breakSecs →
        sessionLoop presets sess round inAlt (ct :: ct2 :: loads2)
            (o :: TimerOutcome.Quit :: outcomes2) =
          some (((if o = TimerOutcome.Skipped then []
              else [SessEvent.notifyEv sess.work]) ++
              [SessEvent.logEv sess.work workSecs]) ++ [SessEvent.cancelled]) ∧
        sessionLoop presets sess round inAlt (ct :: ct2 :: loads2)
            (o :: TimerOutcome.StoppedEarly :: outcomes2) =
          some (((if o = TimerOutcome.Skipped then []
              else [SessEvent.notifyEv sess.work]) ++
              [SessEvent.logEv sess.work workSecs]) ++
            [SessEvent.cleanupScreen, SessEvent.stoppedEarly round])) := by
  refine ⟨?_, ?_, ?_⟩
  · simp only [sessionLoop.eq_def]
    rw [if_neg (by omega : ¬ ct < round)]
    rw [hw]
  · simp only [sessionLoop.eq_def]
    rw [if_neg (by omega : ¬ ct < round)]
    rw [hw]
  · intro o ct2 loads2 outcomes2 breakSecs ho hb
    obtain ⟨hq, hs⟩ := breakCont_abort presets sess round ct2 loads2 outcomes2
      breakSecs hb
    constructor
    · rw [sessionLoop_work_split presets sess round inAlt ct (ct2 :: loads2)
        (TimerOutcome.Quit :: outcomes2) workSecs o hr hw ho, hq]
      rfl
    · rw [sessionLoop_work_split presets sess round inAlt ct (ct2 :: loads2)
        (TimerOutcome.StoppedEarly :: outcomes2) workSecs o hr hw ho, hs]
      rfl

/-- Witness for C7: a work-phase quit in round 1 of a concrete session, a
work-phase stop, and a break-phase stop after a completed work phase. -/
theorem session_abort_witness :
    sessionLoop [] ⟨"1m", "2m", "3m", 2⟩ 1 false [2, 7]
        [TimerOutcome.Quit, TimerOutcome.Completed] = some [SessEvent.cancelled] ∧
      sessionLoop [] ⟨"1m", "2m", "3m", 2⟩ 1 false [2, 7]
          [TimerOutcome.StoppedEarly, TimerOutcome.Completed] =
        some [SessEvent.cleanupScreen, SessEvent.stoppedEarly 0] ∧
      sessionLoop [] ⟨"1m", "2m", "3m", 2⟩ 1 false [2, 7]
          [TimerOutcome.Completed, TimerOutcome.StoppedEarly] =
        some [SessEvent.notifyEv ("1m"), SessEvent.logEv ("1m") 60,
          SessEvent.cleanupScreen, SessEvent.stoppedEarly 1] :=
  ⟨(session_abort [] ⟨"1m", "2m", "3m", 2⟩ 1 false 2 [7]
      [TimerOutcome.Completed] 60 (by decide) rfl).1,
    (session_abort [] ⟨"1m", "2m", "3m", 2⟩ 1 false 2 [7]
      [TimerOutcome.Completed] 60 (by decide) rfl).2.1,
    ((session_abort [] ⟨"1m", "2m", "3m", 2⟩ 1 false 2 [7]
      [TimerOutcome.Completed] 60 (by decide) rfl).2.2 TimerOutcome.Completed
      7 [] [] 120 (Or.inl rfl) rfl).2⟩

/-- Claim C5 counterexample: in a concrete two-round session whose first work
phase is skipped (and is immediately followed by the break phase in the same
surface), the desktop notification is suppressed but the log entry is still
appended — the run's event list contains the log entry for the skipped
phase — contradicting the claim that both members of the notification pair
are suppressed for such a skipped phase. -/
theorem skip_log_counterexample :
    runSession [] ⟨"1m", "1m", "1m", 2⟩ [2, 2]
        [TimerOutcome.Skipped, TimerOutcome.Quit] =
      some [SessEvent.logEv ("1m") 60, SessEvent.cancelled] ∧
    loggedSecs [SessEvent.logEv ("1m") 60, SessEvent.cancelled] = [60] := by
  constructor
  · rfl
  · rfl

/-- Claim C5 amended: for every work or break phase that does not abort the
session, the desktop popup fires exactly when the phase's outcome is
`Completed` and is suppressed when it is `Skipped` (with the next phase
following in the same surface), while the log entry is appended in both
cases: the phase's contribution to the event list is
`[notify, log]` when completed and `[log]` alone when skipped. -/
theorem notify_log_amended (presets : List (String × String))
    (sess : SessionConfig) (round : Nat) (inAlt : Bool) (ct : Nat)
    (loads1 : List Nat) (outcomes1 : List TimerOutcome) (workSecs : Nat)
    (hr : round ≤ ct)
    (hw : parseDuration ((resolvePreset presets sess.work).getD sess.work) =
      Except.ok workSecs) :
    (∀ evs, sessionLoop presets sess round inAlt (ct :: loads1)
        (TimerOutcome.Completed :: outcomes1) = some evs →
      ∃ t, evs = SessEvent.notifyEv sess.work ::
        SessEvent.logEv sess.work workSecs :: t) ∧
      (∀ evs, sessionLoop presets sess round inAlt (ct :: loads1)
          (TimerOutcome.Skipped :: outcomes1) = some evs →
        ∃ t, evs = SessEvent.logEv sess.work workSecs :: t) ∧
      (∀ (ct2 : Nat) (loads2 : List Nat) (o2 : TimerOutcome)
          (outcomes2 : List TimerOutcome) (breakSecs : Nat) (evs : List SessEvent),
        o2 = TimerOutcome.Completed ∨ o2 = TimerOutcome.Skipped →
        parseDuration ((resolvePreset presets
            (if round = ct2 then sess.longBreak else sess.breakPreset)).getD
            (if round = ct2 then sess.longBreak else sess.breakPreset)) =
          Except.ok breakSecs →
        sessionLoop presets sess round inAlt (ct :: ct2 :: loads2)
            (TimerOutcome.Completed :: o2 :: outcomes2) = some evs →
        ∃ t, evs = SessEvent.notifyEv sess.work ::
          SessEvent.logEv sess.work workSecs ::
            (((if o2 = TimerOutcome.Skipped then []
              else [SessEvent.notifyEv
                (if round = ct2 then sess.longBreak else sess.breakPreset)]) ++
              [SessEvent.logEv
                (if round = ct2 then sess.longBreak else sess.breakPreset)
                breakSecs]) ++ t)) := by
  refine ⟨?_, ?_, ?_⟩
  · intro evs h
    rw [sessionLoop_work_split presets sess round inAlt ct loads1 outcomes1
      workSecs TimerOutcome.Completed hr hw (Or.inl rfl)] at h
    cases hbc : breakCont presets sess round loads1 outcomes1 with
    | none => rw [hbc] at h; simp at h
    | some t0 =>
      rw [hbc] at h
      simp at h
      exact ⟨t0, by rw [← h]⟩
  · intro evs h
    rw [sessionLoop_work_split presets sess round inAlt ct loads1 outcomes1
      workSecs TimerOutcome.Skipped hr hw (Or.inr rfl)] at h
    cases hbc : breakCont presets sess round loads1 outcomes1 with
    | none => rw [hbc] at h; simp at h
    | some t0 =>
      rw [hbc] at h
      simp at h
      exact ⟨t0, by rw [← h]⟩
  · intro ct2 loads2 o2 outcomes2 breakSecs evs ho2 hb h
    rw [sessionLoop_work_split presets sess round inAlt ct (ct2 :: loads2)
      (o2 :: outcomes2) workSecs TimerOutcome.Completed hr hw (Or.inl rfl),
      breakCont_split presets sess round ct2 loads2 outcomes2 breakSecs o2
        hb ho2] at h
    cases hrec : sessionLoop presets sess (round + 1)
        (o2 = TimerOutcome.Skipped) loads2 outcomes2 with
    | none => rw [hrec] at h; simp at h
    | some t0 =>
      rw [hrec] at h
      simp at h
      exact ⟨t0, by rw [← h]; simp⟩

/-- Witness for C5 amended at a concrete session run. -/
theorem notify_log_amended_witness :
    (∃ t, [SessEvent.notifyEv ("1m"), SessEvent.logEv ("1m") 60,
        SessEvent.cancelled] =
      SessEvent.notifyEv ("1m") :: SessEvent.logEv ("1m") 60 :: t) ∧
      (∃ t, [SessEvent.logEv ("1m") 60, SessEvent.cancelled] =
        SessEvent.logEv ("1m") 60 :: t) :=
  ⟨(notify_log_amended [] ⟨"1m", "2m", "3m", 2⟩ 1 false 2 [7]
        [TimerOutcome.Quit] 60 (by decide) rfl).1
      [SessEvent.notifyEv ("1m"), SessEvent.logEv ("1m") 60,
        SessEvent.cancelled] rfl,
    (notify_log_amended [] ⟨"1m", "2m", "3m", 2⟩ 1 false 2 [7]
        [TimerOutcome.Quit] 60 (by decide) rfl).2.1
      [SessEvent.logEv ("1m") 60, SessEvent.cancelled] rfl⟩

/-- Claim C8: the break phase of round `round` uses the long-break preset exactly
when `round` equals the round target re-read at break-selection time, and
the short-break preset otherwise — stated for each case through the events
the break phase emits — and the concrete scenario: a `rounds = 2` session
(work 25m, break 5m, long break 15m) run with no key input executes work,
short break, work, long break in that order, and appends four log entries
whose durations sum to 70 minutes. -/
theorem long_break_selection (presets : List (String × String))
    (sess : SessionConfig) (round : Nat) (inAlt : Bool) (ct : Nat)
    (workSecs : Nat)
    (hr : round ≤ ct)
    (hw : parseDuration ((resolvePreset presets sess.work).getD sess.work) =
      Except.ok workSecs) :
    (∀ (ct2 : Nat) (loads2 : List Nat) (outcomes2 : List TimerOutcome)
        (lbSecs : Nat) (evs : List SessEvent),
      round = ct2 →
      parseDuration ((resolvePreset presets sess.longBreak).getD
        sess.longBreak) = Except.ok lbSecs →
      sessionLoop presets sess round inAlt (ct :: ct2 :: loads2)
          (TimerOutcome.Completed :: TimerOutcome.Completed :: outcomes2) =
        some evs →
      ∃ t, evs = SessEvent.notifyEv sess.work ::
        SessEvent.logEv sess.work workSecs ::
          SessEvent.notifyEv sess.longBreak ::
            SessEvent.logEv sess.longBreak lbSecs :: t) ∧
      (∀ (ct2 : Nat) (loads2 : List Nat) (outcomes2 : List TimerOutcome)
          (sbSecs : Nat) (evs : List SessEvent),
        round ≠ ct2 →
        parseDuration ((resolvePreset presets sess.breakPreset).getD
          sess.breakPreset) = Except.ok sbSecs →
        sessionLoop presets sess round inAlt (ct :: ct2 :: loads2)
            (TimerOutcome.Completed :: TimerOutcome.Completed :: outcomes2) =
          some evs →
        ∃ t, evs = SessEvent.notifyEv sess.work ::
          SessEvent.logEv sess.work workSecs ::
            SessEvent.notifyEv sess.breakPreset ::
              SessEvent.logEv sess.breakPreset sbSecs :: t) ∧
      runSession [] ⟨"25m", "5m", "15m", 2⟩ [2, 2, 2, 2, 2, 2]
          [TimerOutcome.Completed, TimerOutcome.Completed,
            TimerOutcome.Completed, TimerOutcome.Completed] =
        some [SessEvent.notifyEv ("25m"), SessEvent.logEv ("25m") 1500,
          SessEvent.notifyEv ("5m"), SessEvent.logEv ("5m") 300,
          SessEvent.notifyEv ("25m"), SessEvent.logEv ("25m") 1500,
          SessEvent.notifyEv ("15m"), SessEvent.logEv ("15m") 900,
          SessEvent.sessionComplete 2] ∧
      loggedSecs [SessEvent.notifyEv ("25m"), SessEvent.logEv ("25m") 1500,
          SessEvent.notifyEv ("5m"), SessEvent.logEv ("5m") 300,
          SessEvent.notifyEv ("25m"), SessEvent.logEv ("25m") 1500,
          SessEvent.notifyEv ("15m"), SessEvent.logEv ("15m") 900,
          SessEvent.sessionComplete 2] = [1500, 300, 1500, 900] ∧
      [1500, 300, 1500, 900].sum = 70 * 60 := by
  refine ⟨?_, ?_, rfl, rfl, rfl⟩
  · intro ct2 loads2 outcomes2 lbSecs evs hct hlb h
    have hb : parseDuration ((resolvePreset presets
        (if round = ct2 then sess.longBreak else sess.breakPreset)).getD
        (if round = ct2 then sess.longBreak else sess.breakPreset)) =
        Except.ok lbSecs := by
      rw [if_pos hct]
      exact hlb
    rw [sessionLoop_work_split presets sess round inAlt ct (ct2 :: loads2)
      (TimerOutcome.Completed :: outcomes2) workSecs TimerOutcome.Completed
      hr hw (Or.inl rfl),
      breakCont_split presets sess round ct2 loads2 outcomes2 lbSecs
        TimerOutcome.Completed hb (Or.inl rfl)] at h
    cases hrec : sessionLoop presets sess (round + 1)
        (TimerOutcome.Completed = TimerOutcome.Skipped) loads2 outcomes2 with
    | none => rw [hrec] at h; simp at h
    | some t0 =>
      rw [hrec] at h
      simp [if_pos hct] at h
      exact ⟨t0, by rw [← h]⟩
  · intro ct2 loads2 outcomes2 sbSecs evs hct hsb h
    have hb : parseDuration ((resolvePreset presets
        (if round = ct2 then sess.longBreak else sess.breakPreset)).getD
        (if round = ct2 then sess.longBreak else sess.breakPreset)) =
        Except.ok sbSecs := by
      rw [if_neg hct]
      exact hsb
    rw [sessionLoop_work_split presets sess round inAlt ct (ct2 :: loads2)
      (TimerOutcome.Completed :: outcomes2) workSecs TimerOutcome.Completed
      hr hw (Or.inl rfl),
      breakCont_split presets sess round ct2 loads2 outcomes2 sbSecs
        TimerOutcome.Completed hb (Or.inl rfl)] at h
    cases hrec : sessionLoop presets sess (round + 1)
        (TimerOutcome.Completed = TimerOutcome.Skipped) loads2 outcomes2 with
    | none => rw [hrec] at h; simp at h
    | some t0 =>
      rw [hrec] at h
      simp [if_neg hct] at h
      exact ⟨t0, by rw [← h]⟩

/-- Witness for C8 at a concrete final-round break (long) and a concrete
earlier-round break (short). -/
theorem long_break_selection_witness :
    (∃ t, [SessEvent.notifyEv ("1m"), SessEvent.logEv ("1m") 60,
        SessEvent.notifyEv ("3m"), SessEvent.logEv ("3m") 180,
        SessEvent.sessionComplete 1] =
      SessEvent.notifyEv ("1m") :: SessEvent.logEv ("1m") 60 ::
        SessEvent.notifyEv ("3m") :: SessEvent.logEv ("3m") 180 :: t) ∧
      (∃ t, [SessEvent.notifyEv ("1m"), SessEvent.logEv ("1m") 60,
          SessEvent.notifyEv ("2m"), SessEvent.logEv ("2m") 120,
          SessEvent.cancelled] =
        SessEvent.notifyEv ("1m") :: SessEvent.logEv ("1m") 60 ::
          SessEvent.notifyEv ("2m") :: SessEvent.logEv ("2m") 120 :: t) :=
  ⟨(long_break_selection [] ⟨"1m", "2m", "3m", 1⟩ 1 false 1 60 (by decide)
        rfl).1 1 [0, 1] [] 180
      [SessEvent.notifyEv ("1m"), SessEvent.logEv ("1m") 60,
        SessEvent.notifyEv ("3m"), SessEvent.logEv ("3m") 180,
        SessEvent.sessionComplete 1] rfl rfl rfl,
    (long_break_selection [] ⟨"1m", "2m", "3m", 2⟩ 1 false 2 60 (by decide)
        rfl).2.1 2 [2] [TimerOutcome.Quit] 120
      [SessEvent.notifyEv ("1m"), SessEvent.logEv ("1m") 60,
        SessEvent.notifyEv ("2m"), SessEvent.logEv ("2m") 120,
        SessEvent.cancelled] (by decide) rfl rfl⟩

end Pomitik
